import Mathlib

/-!
Shallow embedding of the StickyLines plugin (src/StickyLines.py).

The host editor (Sublime Text) is abstracted: a `View` packages the host
facilities actually read by the algorithms (total line count, the row
component of `rowcol`, the symbol list produced by `Symbol.from_symbol_region`
over `symbol_regions()`, and `substr ∘ full_line`).  A `ViewHost` additionally
carries the mutable host overlay ("phantom") store for the single key
`PHANTOM_KEY` together with the view's visible region.  Time (Python's
`monotonic()` floats) is modelled by rationals.
-/

namespace StickyLines

/-- A Sublime `Region`: a pair of offsets `a`, `b` with
`begin() = min a b` and `end() = max a b`. -/
structure Region where
  a : Nat
  b : Nat
deriving DecidableEq, Repr

/-- `Region.begin()`. -/
def Region.rbegin (r : Region) : Nat := min r.a r.b

/-- `Region.end()`. -/
def Region.rend (r : Region) : Nat := max r.a r.b

/-- `Region.contains(pt)`: `begin() <= pt <= end()`. -/
def Region.contains (r : Region) (pt : Nat) : Bool :=
  decide (r.rbegin ≤ pt) && decide (pt ≤ r.rend)

/-- A Sublime `SymbolRegion`: the source region of the symbol plus the name
of the syntax it was indexed under (the Python attribute `syntax`; renamed
here because that word is reserved). -/
structure SymbolRegion where
  region : Region
  syntaxName : String
deriving DecidableEq, Repr

/-- The plugin's `Symbol` dataclass.  The Python class stores a view
back-reference, the indentation level and the `SymbolRegion`; the `line`
property is derived as `view.rowcol(region.region.begin())[0]` and cached
per instance, so it is embedded as a plain field holding that cached row. -/
structure Symbol where
  indent : Nat
  line : Nat
  region : SymbolRegion
deriving DecidableEq, Repr

/-- The host facilities of one view read by the pure algorithms:
`totalLines` is `len(view.lines(sublime.Region(0, view.size())))`,
`rowcol` is the row component of `view.rowcol`, `symbols` is the list
`[Symbol.from_symbol_region(view, s) for s in view.symbol_regions()]`,
and `substrFullLine` is `view.substr(view.full_line(·))`. -/
structure View where
  totalLines : Nat
  rowcol : Nat → Nat
  symbols : List Symbol
  substrFullLine : Region → String

/-- The span notion of the specification: line `line` lies in the span of the
`k`-th symbol, `[symbols[k].line, symbols[k+1].line)`, where the last span is
closed by the document's total line count.  Out-of-range `k` gives `false`. -/
def inSpan (totalLines : Nat) (symbols : List Symbol) (k : Nat) (line : Nat) :
    Bool :=
  match symbols[k]? with
  | none => false
  | some s =>
    let next_line :=
      match symbols[k + 1]? with
      | some t => t.line
      | none => totalLines
    decide (s.line ≤ line) && decide (line < next_line)

/-- The local helper `is_active` of `get_active_symbol`: the current line is
in the span `[current_symbol.line, next_line)` where `next_line` is the next
symbol's line, or the document's total line count for the last symbol. -/
def is_active (totalLines : Nat) (current_line : Nat)
    (current_symbol : Symbol) (next_symbol : Option Symbol) : Bool :=
  let next_line :=
    match next_symbol with
    | some s => s.line
    | none => totalLines
  decide (current_line ≥ current_symbol.line) && decide (current_line < next_line)

/-- The indexed scan of `get_active_symbol`: walk the list keeping the running
index `i`; the symbol after the head is the head of the tail. -/
def get_active_symbol_aux (totalLines : Nat) (current_line : Nat) :
    Nat → List Symbol → Option (Nat × Symbol)
  | _, [] => none
  | i, symbol :: rest =>
    if is_active totalLines current_line symbol rest.head? then
      some (i, symbol)
    else
      get_active_symbol_aux totalLines current_line (i + 1) rest

/-- `get_active_symbol(symbols, current_line)`: first index and symbol whose
span contains `current_line`; the Python `(-1, None)` failure result is
embedded as `none`. -/
def get_active_symbol (totalLines : Nat) (symbols : List Symbol)
    (current_line : Nat) : Option (Nat × Symbol) :=
  get_active_symbol_aux totalLines current_line 0 symbols

/-- The recursive helper `create_stack` of `get_symbol_stack`.  The Python
code tests `active_symbol.indent == 0` before testing emptiness of `stack`;
both branches return `[]` on an empty `stack`, so matching on the list first
(as required for structural recursion) yields the same function. -/
def create_stack : Symbol → List Symbol → List Symbol
  | _, [] => []
  | active_symbol, head :: rest =>
    if active_symbol.indent = 0 then
      []
    else if active_symbol.indent > head.indent then
      head :: create_stack head rest
    else
      create_stack active_symbol rest

/-- `get_symbol_stack(view, viewport)`. -/
def get_symbol_stack (view : View) (viewport : Region) : List Symbol :=
  let first_viewport_line := view.rowcol viewport.rbegin
  let symbols := view.symbols
  match get_active_symbol view.totalLines symbols first_viewport_line with
  | none => []
  | some (active_symbol_position, active_symbol) =>
    if active_symbol.indent = 0 then
      if !(viewport.contains active_symbol.region.region.rbegin) then
        [active_symbol]
      else
        []
    else
      let stack :=
        active_symbol ::
          create_stack active_symbol (symbols.take active_symbol_position).reverse
      (stack.filter
        (fun symbol => !(viewport.contains symbol.region.region.rbegin))).reverse

/-- `create_phantom_content(view, stack)`: empty string on an empty stack,
otherwise a fenced code block tagged with the first symbol's syntax name
whose body accumulates each symbol's full source line in stack order. -/
def create_phantom_content (view : View) (stack : List Symbol) : String :=
  match stack with
  | [] => ""
  | first :: rest =>
    ((first :: rest).foldl
      (fun rendered symbol => rendered ++ view.substrFullLine symbol.region.region)
      ("```" ++ first.region.syntaxName ++ "\n")) ++ "\n```"

/-- One host phantom under `PHANTOM_KEY`: the id assigned by the host, its
current position, and the content it was created with. -/
structure HostPhantom where
  pid : Nat
  pos : Region
  content : String
deriving DecidableEq, Repr

/-- One view of the host editor together with the overlay state the plugin
mutates: the visible region, the phantoms stored under `PHANTOM_KEY`, and
the next phantom id the host will assign. -/
structure ViewHost where
  view : View
  visibleRegion : Region
  phantoms : List HostPhantom
  nextPid : Nat

/-- `view.query_phantom(pid)`: the current position of the phantom with this
id, or `none` once it has been erased (the Python code maps the empty result
list to `None` and otherwise takes the single region). -/
def query_phantom (host : ViewHost) (pid : Nat) : Option Region :=
  (host.phantoms.find? (fun p => p.pid == pid)).map (fun p => p.pos)

/-- `hide_lines(view)`: `view.erase_phantoms(PHANTOM_KEY)` removes every
phantom stored under the key. -/
def hide_lines (host : ViewHost) : ViewHost :=
  { host with phantoms := [] }

/-- `mdpopups.add_phantom(view, PHANTOM_KEY, region, content, BLOCK)`:
the host stores a new phantom anchored at `region` and returns its id. -/
def add_phantom (host : ViewHost) (region : Region) (content : String) :
    ViewHost × Nat :=
  ({ host with
      phantoms := host.phantoms ++ [⟨host.nextPid, region, content⟩],
      nextPid := host.nextPid + 1 },
   host.nextPid)

/-- The hysteresis window `Phantom.HISTERISIS_S` (one second). -/
def HISTERISIS_S : ℚ := 1

/-- The plugin's `Phantom` dataclass (the sync-loop side): phantom id,
`_last_check` (a `monotonic()` timestamp) and `_last_checked_position`. -/
structure PhantomData where
  pid : Nat
  lastCheck : ℚ
  lastCheckedPosition : Option Region
deriving DecidableEq, Repr

/-- `Phantom.position`: query the host for the phantom's current region. -/
def Phantom.position (host : ViewHost) (p : PhantomData) : Option Region :=
  query_phantom host p.pid

/-- `Phantom.is_on_top`: the phantom's position equals the view's visible
region (a `None` position is never equal to a region). -/
def Phantom.is_on_top (host : ViewHost) (p : PhantomData) : Bool :=
  Phantom.position host p == some host.visibleRegion

/-- `Phantom.is_stabilized`: the position has not changed since the last
observed change and more than `HISTERISIS_S` has elapsed since it (the
Python property also prints a diagnostic line, a pure side effect). -/
def Phantom.is_stabilized (host : ViewHost) (p : PhantomData) (now : ℚ) : Bool :=
  (p.lastCheckedPosition == Phantom.position host p)
    && decide (p.lastCheck + HISTERISIS_S < now)

/-- `Phantom.mark_checked`: record the current position and timestamp, but
only when the position actually changed. -/
def Phantom.mark_checked (host : ViewHost) (p : PhantomData) (now : ℚ) :
    PhantomData :=
  let current_position := Phantom.position host p
  if current_position == p.lastCheckedPosition then
    p
  else
    { p with lastCheckedPosition := current_position, lastCheck := now }

/-- Result of `display_lines`: the updated host view and the `Phantom`
returned to the caller (`none` when the stack was empty). -/
structure DisplayResult where
  host : ViewHost
  phantom : Option PhantomData

/-- `display_lines(view)`: compute the stack for the visible region, erase
the previous overlay, and create a fresh phantom only when the stack is
non-empty.  The constructed `Phantom` records `monotonic()` (`now`) as
`_last_check` and its own queried position as `_last_checked_position`. -/
def display_lines (host : ViewHost) (now : ℚ) : DisplayResult :=
  let viewport := host.visibleRegion
  let stack := get_symbol_stack host.view viewport
  let host1 := hide_lines host
  if stack.isEmpty then
    ⟨host1, none⟩
  else
    let added := add_phantom host1 viewport (create_phantom_content host.view stack)
    ⟨added.1,
     some { pid := added.2,
            lastCheck := now,
            lastCheckedPosition := query_phantom added.1 added.2 }⟩

/-- Per-view state fed to one sync-loop tick: the per-view enabled flag,
the host view, and the entry (if any) this view has in the sync manager's
`_last_states` map. -/
structure SyncViewState where
  enabled : Bool
  host : ViewHost
  tracked : Option PhantomData

/-- Result of one `SyncManager._handle_view` tick; `recomputed` records
whether `display_lines` (the stack recomputation) ran on this tick. -/
structure HandleResult where
  host : ViewHost
  tracked : Option PhantomData
  recomputed : Bool

/-- The fall-through tail of `_handle_view`:
`if (phantom := display_lines(view)): self._last_states[view] = phantom`.
A `None` result leaves the map entry untouched. -/
def handle_view_display (host : ViewHost) (tracked : Option PhantomData)
    (now : ℚ) : HandleResult :=
  let d := display_lines host now
  match d.phantom with
  | some p => { host := d.host, tracked := some p, recomputed := true }
  | none => { host := d.host, tracked := tracked, recomputed := true }

/-- `SyncManager._handle_view(view)` for one view at time `now`. -/
def handle_view (s : SyncViewState) (now : ℚ) : HandleResult :=
  if !s.enabled then
    { host := hide_lines s.host, tracked := s.tracked, recomputed := false }
  else
    match s.tracked with
    | some old_phantom =>
      if Phantom.is_on_top s.host old_phantom then
        { host := s.host, tracked := some old_phantom, recomputed := false }
      else if !(Phantom.is_stabilized s.host old_phantom now) then
        { host := s.host,
          tracked := some (Phantom.mark_checked s.host old_phantom now),
          recomputed := false }
      else
        handle_view_display s.host (some old_phantom) now
    | none => handle_view_display s.host none now

/-! ### Concrete fixtures

A document in which every line occupies ten offsets (so `rowcol` is division
by ten), carrying the three symbols of the specification's scenario, plus a
symbol-free view and host used to exercise the overlay life cycle. -/

/-- Scenario symbol `A`: indentation 0, line 0. -/
def exA : Symbol := ⟨0, 0, ⟨⟨0, 3⟩, "python"⟩⟩

/-- Scenario symbol `B`: indentation 1, line 5. -/
def exB : Symbol := ⟨1, 5, ⟨⟨50, 53⟩, "python"⟩⟩

/-- Scenario symbol `C`: indentation 2, line 10. -/
def exC : Symbol := ⟨2, 10, ⟨⟨100, 103⟩, "python"⟩⟩

/-- The scenario view: 25 lines of ten offsets each, symbols `[A, B, C]`. -/
def exView : View :=
  { totalLines := 25
    rowcol := fun off => off / 10
    symbols := [exA, exB, exC]
    substrFullLine := fun _ => "line\n" }

/-- The scenario viewport: offsets `[120, 200]`, i.e. lines 12 through 20. -/
def exViewport : Region := ⟨120, 200⟩

/-- A single-line flat view (one symbol of indentation 0 at line 0). -/
def exFlatView : View :=
  { totalLines := 30
    rowcol := fun off => off / 10
    symbols := [⟨0, 0, ⟨⟨0, 3⟩, "python"⟩⟩]
    substrFullLine := fun _ => "line\n" }

/-- A view with no symbols at all. -/
def exEmptyView : View :=
  { totalLines := 0
    rowcol := fun _ => 0
    symbols := []
    substrFullLine := fun _ => "" }

/-- The position last observed for the tracked overlay of the debounce
scenario. -/
def exR1 : Region := ⟨0, 10⟩

/-- The live viewport of the debounce scenario (differs from `exR1`). -/
def exR2 : Region := ⟨100, 200⟩

/-- Host view of the debounce scenario: one phantom with id 0 standing at
`exR1` while the viewport is `exR2`. -/
def exHost6 : ViewHost :=
  { view := exEmptyView
    visibleRegion := exR2
    phantoms := [⟨0, exR1, "content"⟩]
    nextPid := 1 }

/-- Sync-map entry of the debounce scenario: the position change to `exR1`
was observed at `t = 0`. -/
def exOld6 : PhantomData := { pid := 0, lastCheck := 0, lastCheckedPosition := some exR1 }

/-- Per-view sync state of the debounce scenario at the moment after the
change at `t = 0`. -/
def exState6 : SyncViewState :=
  { enabled := true, host := exHost6, tracked := some exOld6 }

/-- A host view with no phantom at all. -/
def exHost0 : ViewHost :=
  { view := exEmptyView
    visibleRegion := ⟨0, 0⟩
    phantoms := []
    nextPid := 0 }

/-! ### Characterization of `get_active_symbol` -/

theorem inSpan_nil (tl k line : Nat) : inSpan tl [] k line = false := by
  simp [inSpan]

theorem inSpan_cons_zero (tl line : Nat) (s : Symbol) (rest : List Symbol) :
    inSpan tl (s :: rest) 0 line = is_active tl line s rest.head? := by
  cases rest <;> simp [inSpan, is_active]

theorem inSpan_cons_succ (tl line k : Nat) (s : Symbol) (rest : List Symbol) :
    inSpan tl (s :: rest) (k + 1) line = inSpan tl rest k line := by
  simp [inSpan]

theorem get_active_symbol_aux_some (tl line : Nat) :
    ∀ (l : List Symbol) (i j : Nat) (s : Symbol),
      get_active_symbol_aux tl line i l = some (j, s) →
      ∃ k, j = i + k ∧ l[k]? = some s ∧ inSpan tl l k line = true ∧
        ∀ m, m < k → inSpan tl l m line = false
  | [], i, j, s => by
    intro h
    simp [get_active_symbol_aux] at h
  | a :: rest, i, j, s => by
    intro h
    rw [get_active_symbol_aux] at h
    cases ha : is_active tl line a rest.head? with
    | true =>
      rw [if_pos ha] at h
      obtain ⟨hj, hs⟩ : i = j ∧ a = s := by
        simpa using h
      refine ⟨0, by omega, ?_, ?_, fun m hm => absurd hm (Nat.not_lt_zero m)⟩
      · simp [← hs]
      · rw [inSpan_cons_zero]; exact ha
    | false =>
      rw [if_neg (by simp [ha])] at h
      obtain ⟨k, hk, hget, hin, hmin⟩ :=
        get_active_symbol_aux_some tl line rest (i + 1) j s h
      refine ⟨k + 1, by omega, by simpa using hget, ?_, ?_⟩
      · rw [inSpan_cons_succ]; exact hin
      · intro m hm
        match m with
        | 0 => rw [inSpan_cons_zero]; exact ha
        | m' + 1 =>
          rw [inSpan_cons_succ]
          exact hmin m' (by omega)

theorem get_active_symbol_aux_none_iff (tl line : Nat) :
    ∀ (l : List Symbol) (i : Nat),
      get_active_symbol_aux tl line i l = none ↔
        ∀ k, inSpan tl l k line = false
  | [], i => by
    simp [get_active_symbol_aux, inSpan_nil]
  | a :: rest, i => by
    rw [get_active_symbol_aux]
    cases ha : is_active tl line a rest.head? with
    | true =>
      rw [if_pos rfl]
      simp only [reduceCtorEq, false_iff, not_forall]
      exact ⟨0, by rw [inSpan_cons_zero, ha]; simp⟩
    | false =>
      rw [if_neg Bool.false_ne_true]
      rw [get_active_symbol_aux_none_iff tl line rest (i + 1)]
      constructor
      · intro hall k
        match k with
        | 0 => rw [inSpan_cons_zero]; exact ha
        | k' + 1 => rw [inSpan_cons_succ]; exact hall k'
      · intro hall k
        have := hall (k + 1)
        rwa [inSpan_cons_succ] at this

theorem get_active_symbol_some {tl line j : Nat} {symbols : List Symbol}
    {s : Symbol} (h : get_active_symbol tl symbols line = some (j, s)) :
    symbols[j]? = some s ∧ inSpan tl symbols j line = true ∧
      ∀ m, m < j → inSpan tl symbols m line = false := by
  obtain ⟨k, hk, hget, hin, hmin⟩ :=
    get_active_symbol_aux_some tl line symbols 0 j s h
  have hjk : j = k := by omega
  subst hjk
  exact ⟨hget, hin, hmin⟩

theorem get_active_symbol_none_iff {tl line : Nat} {symbols : List Symbol} :
    get_active_symbol tl symbols line = none ↔
      ∀ k, inSpan tl symbols k line = false :=
  get_active_symbol_aux_none_iff tl line symbols 0

/-! ### Structure of the ancestor chain built by `create_stack` -/

theorem create_stack_pairwise :
    ∀ (l : List Symbol) (active : Symbol),
      List.Pairwise (fun a b => b.indent < a.indent)
        (active :: create_stack active l)
  | [], active => by simp [create_stack]
  | head :: rest, active => by
    simp only [create_stack]
    by_cases h0 : active.indent = 0
    · rw [if_pos h0]
      simp
    · rw [if_neg h0]
      by_cases hgt : active.indent > head.indent
      · rw [if_pos hgt]
        have ih := create_stack_pairwise rest head
        have ihbound := (List.pairwise_cons.mp ih).1
        rw [List.pairwise_cons]
        refine ⟨?_, ih⟩
        intro b hb
        rcases List.mem_cons.mp hb with hb | hb
        · rw [hb]
          exact hgt
        · exact lt_trans (ihbound b hb) hgt
      · rw [if_neg hgt]
        exact create_stack_pairwise rest active

theorem create_stack_sublist :
    ∀ (l : List Symbol) (active : Symbol),
      List.Sublist (create_stack active l) l
  | [], active => by simp [create_stack]
  | head :: rest, active => by
    simp only [create_stack]
    by_cases h0 : active.indent = 0
    · rw [if_pos h0]
      exact List.nil_sublist _
    · rw [if_neg h0]
      by_cases hgt : active.indent > head.indent
      · rw [if_pos hgt]
        exact List.Sublist.cons₂ head (create_stack_sublist rest head)
      · rw [if_neg hgt]
        exact List.Sublist.cons head (create_stack_sublist rest active)

/-! ### String helpers for the rendered overlay content -/

theorem join_cons (a : String) (l : List String) :
    String.join (a :: l) = a ++ String.join l := by
  apply String.ext
  simp

theorem foldl_append_eq_join (f : Symbol → String) :
    ∀ (l : List Symbol) (init : String),
      l.foldl (fun acc s => acc ++ f s) init = init ++ String.join (l.map f)
  | [], init => by simp [String.join]
  | a :: t, init => by
    rw [List.foldl_cons, foldl_append_eq_join f t (init ++ f a), List.map_cons,
      join_cons, String.append_assoc]

theorem create_phantom_content_cons_ne_empty (view : View) (first : Symbol)
    (rest : List Symbol) :
    create_phantom_content view (first :: rest) ≠ "" := by
  intro h
  have hlen := congrArg String.length h
  rw [create_phantom_content] at hlen
  rw [String.length_append] at hlen
  simp at hlen
  exact absurd hlen.2 (by decide)

theorem create_phantom_content_eq_empty_iff (view : View)
    (stack : List Symbol) :
    create_phantom_content view stack = "" ↔ stack = [] := by
  cases stack with
  | nil => simp [create_phantom_content]
  | cons first rest =>
    simp only [reduceCtorEq, iff_false]
    exact create_phantom_content_cons_ne_empty view first rest

/-- Unfolding equation for `get_symbol_stack` with its `let` bindings
resolved. -/
theorem get_symbol_stack_eq (view : View) (viewport : Region) :
    get_symbol_stack view viewport =
      match get_active_symbol view.totalLines view.symbols
          (view.rowcol viewport.rbegin) with
      | none => []
      | some (active_symbol_position, active_symbol) =>
        if active_symbol.indent = 0 then
          if !(viewport.contains active_symbol.region.region.rbegin) then
            [active_symbol]
          else
            []
        else
          ((active_symbol ::
              create_stack active_symbol
                (view.symbols.take active_symbol_position).reverse).filter
            (fun symbol =>
              !(viewport.contains symbol.region.region.rbegin))).reverse :=
  rfl

/-- Claim C2: for every symbol list and viewport, the stack returned by
`get_symbol_stack` is ordered by strictly increasing indentation from its
first element to its last, and no element of it has a region start offset
contained in the viewport. -/
theorem symbol_stack_pairwise_indent_and_outside_viewport
    (view : View) (viewport : Region) :
    List.Pairwise (fun a b => a.indent < b.indent)
      (get_symbol_stack view viewport) ∧
    (get_symbol_stack view viewport).all
      (fun s => !(viewport.contains s.region.region.rbegin)) = true := by
  rcases hact : get_active_symbol view.totalLines view.symbols
      (view.rowcol viewport.rbegin) with _ | ⟨pos, active⟩ <;>
    rw [get_symbol_stack_eq, hact] <;> dsimp only
  · simp
  · by_cases h0 : active.indent = 0
    · rw [if_pos h0]
      by_cases hc : viewport.contains active.region.region.rbegin = true
      · rw [if_neg (by simp [hc])]
        simp
      · rw [if_pos (by simp [Bool.not_eq_true] at hc; simp [hc])]
        constructor
        · simp
        · simp [Bool.not_eq_true] at hc
          simp [hc]
    · rw [if_neg h0]
      constructor
      · rw [List.pairwise_reverse]
        exact (create_stack_pairwise _ active).filter _
      · simp only [List.all_eq_true, List.mem_reverse]
        intro s hs
        simpa using (List.mem_filter.mp hs).2

/-- Claim C2 witness: the invariants instantiated on the scenario input. -/
theorem stack_invariants_inst :
    (get_symbol_stack exView exViewport).all
      (fun s => !(exViewport.contains s.region.region.rbegin)) = true :=
  (symbol_stack_pairwise_indent_and_outside_viewport exView exViewport).2

/-- Claim C4: on a flat symbol list (all indentation levels 0) the stack has
at most one element, and has exactly one element precisely when an active
symbol was found whose region start offset lies outside the viewport. -/
theorem flat_symbols_stack_at_most_one (view : View) (viewport : Region)
    (hflat : view.symbols.all (fun s => s.indent == 0) = true) :
    (get_symbol_stack view viewport).length ≤ 1 ∧
    ((get_symbol_stack view viewport).length = 1 ↔
      ∃ j s, get_active_symbol view.totalLines view.symbols
          (view.rowcol viewport.rbegin) = some (j, s) ∧
        viewport.contains s.region.region.rbegin = false) := by
  rcases hact : get_active_symbol view.totalLines view.symbols
      (view.rowcol viewport.rbegin) with _ | ⟨pos, active⟩ <;>
    rw [get_symbol_stack_eq, hact] <;> dsimp only
  · simp
  · have hmem : active ∈ view.symbols :=
      List.getElem?_mem (get_active_symbol_some hact).1
    have h0 : active.indent = 0 := by
      have := List.all_eq_true.mp hflat active hmem
      simpa using this
    rw [if_pos h0]
    by_cases hc : viewport.contains active.region.region.rbegin = true
    · rw [if_neg (by simp [hc])]
      refine ⟨by simp, ?_, ?_⟩
      · intro h
        simp at h
      · rintro ⟨j, s, hjs, hcf⟩
        obtain ⟨rfl, rfl⟩ : pos = j ∧ active = s := by
          simpa using hjs
        rw [hc] at hcf
        exact absurd hcf (by simp)
    · rw [Bool.not_eq_true] at hc
      rw [if_pos (by simp [hc])]
      refine ⟨by simp, ?_, fun _ => by simp⟩
      intro _
      exact ⟨pos, active, rfl, hc⟩

/-- Claim C5: when the active symbol has non-zero indentation, the stack is a
subsequence of the input symbol list in document order, and the active symbol
is its last element whenever the active symbol's region start offset lies
outside the viewport. -/
theorem symbol_stack_sublist_and_active_last (view : View) (viewport : Region)
    (pos : Nat) (active : Symbol)
    (hact : get_active_symbol view.totalLines view.symbols
        (view.rowcol viewport.rbegin) = some (pos, active))
    (hind : active.indent ≠ 0) :
    List.Sublist (get_symbol_stack view viewport) view.symbols ∧
    (viewport.contains active.region.region.rbegin = false →
      (get_symbol_stack view viewport).getLast? = some active) := by
  have hget : view.symbols[pos]? = some active := (get_active_symbol_some hact).1
  rw [get_symbol_stack_eq, hact]
  dsimp only
  rw [if_neg hind]
  constructor
  · have h1 := List.filter_sublist (p := fun symbol =>
      !(viewport.contains symbol.region.region.rbegin))
      (active :: create_stack active (view.symbols.take pos).reverse)
    have h2 := h1.reverse
    rw [List.reverse_cons] at h2
    have h3 := create_stack_sublist (view.symbols.take pos).reverse active
    have h4 : List.Sublist
        (create_stack active (view.symbols.take pos).reverse).reverse
        (view.symbols.take pos) := by
      have := h3.reverse
      rwa [List.reverse_reverse] at this
    have h5 := h4.append_right [active]
    have h6 : view.symbols.take pos ++ [active] = view.symbols.take (pos + 1) := by
      rw [List.take_succ, hget]
      rfl
    rw [h6] at h5
    exact h2.trans (h5.trans (List.take_sublist _ _))
  · intro hout
    rw [List.filter_cons, if_pos (by simp [hout]), List.reverse_cons]
    exact List.getLast?_concat _

/-- Claim C5 witness: on the scenario input the active symbol `C` starts
outside the viewport and is the last element of the returned stack. -/
theorem symbol_stack_active_last_inst :
    (get_symbol_stack exView exViewport).getLast? = some exC :=
  (symbol_stack_sublist_and_active_last exView exViewport 2 exC (by decide)
    (by decide)).2 (by decide)

/-- Claim C4 witness: a flat one-symbol view whose symbol starts outside the
viewport yields a stack of length one (hence at most one). -/
theorem flat_symbols_stack_at_most_one_inst :
    (get_symbol_stack exFlatView ⟨100, 200⟩).length ≤ 1 ∧
    (get_symbol_stack exFlatView ⟨100, 200⟩).length = 1 :=
  ⟨(flat_symbols_stack_at_most_one exFlatView ⟨100, 200⟩ (by decide)).1,
   (flat_symbols_stack_at_most_one exFlatView ⟨100, 200⟩ (by decide)).2.mpr
     ⟨0, ⟨0, 0, ⟨⟨0, 3⟩, "python"⟩⟩, by decide, by decide⟩⟩

/-- Claim C1 counterexample: on the scenario input (symbols `A`, `B`, `C` at
indentation 0, 1, 2 and lines 0, 5, 10, viewport lines 12 through 20) the
returned stack is not `[A, B]`. -/
theorem scenario_stack_ne_A_B :
    get_symbol_stack exView exViewport ≠ [exA, exB] := by decide

/-- Claim C1 amended: on the scenario input `get_symbol_stack` locates `C`
as the active symbol, the ancestor walk accepts `B` then `A`, and after the
viewport filter the returned stack is exactly `[A, B, C]` — the active
symbol `C` is kept as well, because its start (line 10) also lies outside
the viewport and the filter drops only symbols starting inside it. -/
theorem scenario_stack_eq_A_B_C :
    get_active_symbol exView.totalLines exView.symbols
        (exView.rowcol exViewport.rbegin) = some (2, exC) ∧
    create_stack exC [exB, exA] = [exB, exA] ∧
    get_symbol_stack exView exViewport = [exA, exB, exC] := by decide

/-- Claim C3: for a symbol list sorted by position (non-decreasing lines),
`get_active_symbol` returns the first index and symbol whose span
`[symbols[i].line, symbols[i+1].line)` (the last span closed by the total
line count) contains the line; it returns `none` exactly when no span
contains the line (in particular on an empty list), and always when the
line precedes the first symbol's line. -/
theorem active_symbol_span_characterization (tl line : Nat)
    (symbols : List Symbol)
    (hsorted : List.Pairwise (fun a b => a.line ≤ b.line) symbols) :
    (∀ j s, get_active_symbol tl symbols line = some (j, s) →
        symbols[j]? = some s ∧ inSpan tl symbols j line = true ∧
          ∀ m, m < j → inSpan tl symbols m line = false) ∧
    (get_active_symbol tl symbols line = none ↔
        ∀ k, inSpan tl symbols k line = false) ∧
    (∀ s0, symbols.head? = some s0 → line < s0.line →
        get_active_symbol tl symbols line = none) := by
  refine ⟨fun j s h => get_active_symbol_some h, get_active_symbol_none_iff, ?_⟩
  intro s0 hh hlt
  rw [get_active_symbol_none_iff]
  intro k
  cases symbols with
  | nil => exact inSpan_nil tl k line
  | cons a rest =>
    obtain rfl : a = s0 := by simpa using hh
    match k with
    | 0 =>
      rw [inSpan_cons_zero]
      simp only [is_active]
      rw [decide_eq_false (by omega : ¬(line ≥ a.line)), Bool.false_and]
    | k' + 1 =>
      rw [inSpan_cons_succ]
      cases hr : rest[k']? with
      | none => simp [inSpan, hr]
      | some t =>
        have hmem : t ∈ rest := List.getElem?_mem hr
        have hle : a.line ≤ t.line := (List.pairwise_cons.mp hsorted).1 t hmem
        simp only [inSpan, hr]
        rw [decide_eq_false (by omega : ¬(t.line ≤ line)), Bool.false_and]

/-- Claim C3 witness: with symbols `[B, C]` (lines 5 and 10, sorted), probing
line 3, which precedes the first symbol's line, yields no active symbol. -/
theorem active_symbol_before_first_line_not_found :
    get_active_symbol 25 [exB, exC] 3 = none :=
  (active_symbol_span_characterization 25 3 [exB, exC] (by decide)).2.2 exB
    rfl (by decide)

/-- Claim C9: `create_phantom_content` renders the empty stack to the empty
string, and a non-empty stack to a fenced code block tagged with the first
(outermost) symbol's syntax name whose body is the concatenation, in stack
order, of every symbol's full source line. -/
theorem phantom_content_rendering (view : View) :
    create_phantom_content view [] = "" ∧
    ∀ (first : Symbol) (rest : List Symbol),
      create_phantom_content view (first :: rest) =
        "```" ++ first.region.syntaxName ++ "\n" ++
          String.join ((first :: rest).map
            (fun symbol => view.substrFullLine symbol.region.region)) ++
          "\n```" := by
  refine ⟨rfl, ?_⟩
  intro first rest
  show ((first :: rest).foldl
      (fun rendered symbol => rendered ++ view.substrFullLine symbol.region.region)
      ("```" ++ first.region.syntaxName ++ "\n")) ++ "\n```" = _
  rw [foldl_append_eq_join (fun symbol => view.substrFullLine symbol.region.region)]

/-- Claim C9 witness: the rendering equations instantiated on a singleton
stack over the scenario view. -/
theorem phantom_content_rendering_inst :
    create_phantom_content exView [exC] =
      "```" ++ exC.region.syntaxName ++ "\n" ++
        String.join ([exC].map
          (fun symbol => exView.substrFullLine symbol.region.region)) ++
        "\n```" :=
  (phantom_content_rendering exView).2 exC []

/-- Claim C8: `display_lines` first erases the previous overlay, creates a
new one only when the rendered content is non-empty (returning `none` when
it is empty, in which case the host is only cleared), so the view carries
at most one live overlay afterwards. -/
theorem display_lines_overlay_invariants (host : ViewHost) (now : ℚ) :
    (display_lines host now).host.phantoms.length ≤ 1 ∧
    ((display_lines host now).phantom = none ↔
      create_phantom_content host.view
        (get_symbol_stack host.view host.visibleRegion) = "") ∧
    (create_phantom_content host.view
        (get_symbol_stack host.view host.visibleRegion) = "" →
      (display_lines host now).host = hide_lines host) ∧
    (create_phantom_content host.view
        (get_symbol_stack host.view host.visibleRegion) ≠ "" →
      (display_lines host now).host.phantoms =
        [⟨host.nextPid, host.visibleRegion,
          create_phantom_content host.view
            (get_symbol_stack host.view host.visibleRegion)⟩]) := by
  rw [create_phantom_content_eq_empty_iff]
  cases hstack : get_symbol_stack host.view host.visibleRegion with
  | nil =>
    simp [display_lines, hstack, hide_lines, create_phantom_content]
  | cons first rest =>
    simp [display_lines, hstack, add_phantom, hide_lines]

/-- Claim C8 witness: on a symbol-free host view the rendered content is
empty and `display_lines` performs no mutation beyond clearing and returns
no phantom. -/
theorem display_lines_empty_content_inst :
    (display_lines exHost0 0).host = hide_lines exHost0 ∧
    (display_lines exHost0 0).phantom = none :=
  ⟨(display_lines_overlay_invariants exHost0 0).2.2.1 rfl,
   ((display_lines_overlay_invariants exHost0 0).2.1).mpr rfl⟩

/-- Claim C10: `hide_lines` is idempotent — a second call leaves the state
exactly as after the first — and it is a no-op when the view has no
overlay. -/
theorem hide_lines_idempotent (host : ViewHost) :
    hide_lines (hide_lines host) = hide_lines host ∧
    (host.phantoms = [] → hide_lines host = host) := by
  constructor
  · rfl
  · intro h
    rw [hide_lines, ← h]

/-- Claim C10 witness: hiding on a host view that has no overlay changes
nothing. -/
theorem hide_lines_noop_inst : hide_lines exHost0 = exHost0 :=
  (hide_lines_idempotent exHost0).2 rfl

/-- `handle_view_display` always reports that the stack was recomputed:
it unconditionally invokes `display_lines`. -/
theorem handle_view_display_recomputed (host : ViewHost)
    (tracked : Option PhantomData) (now : ℚ) :
    (handle_view_display host tracked now).recomputed = true := by
  rw [handle_view_display]
  cases (display_lines host now).phantom <;> rfl

/-- Claim C6: in the Tracking state (an overlay entry is tracked and its
queried position differs from the view's viewport), a tick recomputes the
stack (runs `display_lines`) exactly when the position equals the one
recorded at the last observed change and more than the one-second
hysteresis window has elapsed since that change; a tick that does not
recompute leaves the host untouched. -/
theorem tracking_recomputes_iff_stabilized (s : SyncViewState) (now : ℚ)
    (old : PhantomData) (pos : Region)
    (hen : s.enabled = true)
    (htr : s.tracked = some old)
    (hpos : query_phantom s.host old.pid = some pos)
    (hdiff : pos ≠ s.host.visibleRegion) :
    ((handle_view s now).recomputed = true ↔
      (old.lastCheckedPosition = some pos ∧
        old.lastCheck + HISTERISIS_S < now)) ∧
    ((handle_view s now).recomputed = false →
      (handle_view s now).host = s.host) := by
  have hpp : Phantom.position s.host old = some pos := hpos
  have htop : Phantom.is_on_top s.host old = false := by
    simp [Phantom.is_on_top, hpp, hdiff]
  cases hstab : Phantom.is_stabilized s.host old now with
  | false =>
    have hnot : ¬(old.lastCheckedPosition = some pos ∧
        old.lastCheck + HISTERISIS_S < now) := by
      rintro ⟨h1, h2⟩
      rw [Phantom.is_stabilized, hpp, h1] at hstab
      simp [h2] at hstab
    simp [handle_view, hen, htr, htop, hstab, hnot]
  | true =>
    have hyes : old.lastCheckedPosition = some pos ∧
        old.lastCheck + HISTERISIS_S < now := by
      rw [Phantom.is_stabilized, hpp] at hstab
      rw [Bool.and_eq_true] at hstab
      exact ⟨by simpa using hstab.1, of_decide_eq_true hstab.2⟩
    simp [handle_view, hen, htr, htop, hstab,
      handle_view_display_recomputed, hyes]

/-- Claim C6 witness: after a position change observed at `t = 0` with no
further change, the tick at `t = 0.5` (inside the hysteresis window) does
not recompute, and the tick at `t = 1.1` recomputes. -/
theorem debounce_scenario_inst :
    (handle_view exState6 (1 / 2)).recomputed = false ∧
    (handle_view exState6 (11 / 10)).recomputed = true := by
  have h1 := (tracking_recomputes_iff_stabilized exState6 (1 / 2) exOld6 exR1
    rfl rfl rfl (by decide)).1
  have h2 := (tracking_recomputes_iff_stabilized exState6 (11 / 10) exOld6 exR1
    rfl rfl rfl (by decide)).1
  constructor
  · cases hb : (handle_view exState6 (1 / 2)).recomputed with
    | false => rfl
    | true =>
      obtain ⟨-, hlt⟩ := h1.mp hb
      norm_num [exOld6, HISTERISIS_S] at hlt
  · exact h2.mpr ⟨rfl, by norm_num [exOld6, HISTERISIS_S]⟩

/-- On a tick whose tracked overlay is not on top, is stabilized, and whose
recomputed stack is empty, the host overlay is erased while the sync map
entry survives. -/
theorem handle_view_stabilized_empty (s : SyncViewState) (old : PhantomData)
    (now : ℚ)
    (hen : s.enabled = true)
    (htr : s.tracked = some old)
    (htop : Phantom.is_on_top s.host old = false)
    (hstab : Phantom.is_stabilized s.host old now = true)
    (hstack : get_symbol_stack s.host.view s.host.visibleRegion = []) :
    (handle_view s now).host.phantoms = [] ∧
    (handle_view s now).tracked = some old := by
  simp [handle_view, hen, htr, htop, hstab, handle_view_display,
    display_lines, hstack, hide_lines]

/-- The debounce-scenario state is stabilized at time `t = 2`. -/
theorem exState6_stabilized_at_two :
    Phantom.is_stabilized exHost6 exOld6 2 = true := by
  have hq : Phantom.position exHost6 exOld6 = some exR1 := rfl
  rw [Phantom.is_stabilized, hq]
  simp only [exOld6, beq_self_eq_true, Bool.true_and, decide_eq_true_eq,
    HISTERISIS_S]
  norm_num

/-- Claim C7 counterexample: a stabilized tick whose recomputation yields an
empty stack does not clear the sync state map entry for the view — after
the tick the map still holds the stale phantom. -/
theorem stabilized_empty_stack_cex :
    (handle_view exState6 2).tracked ≠ none := by
  have h := handle_view_stabilized_empty exState6 exOld6 2 rfl rfl (by decide)
    exState6_stabilized_at_two rfl
  rw [h.2]
  simp

/-- Claim C7 amended: when a stabilized tick's recomputation for a tracked
view produces an empty stack, the view's overlay is cleared (the host's
phantoms are erased), but the sync state map retains the previous, now
stale, phantom entry for that view instead of transitioning to the
no-overlay-tracked state. -/
theorem stabilized_empty_stack_keeps_stale_entry (s : SyncViewState)
    (old : PhantomData) (now : ℚ)
    (hen : s.enabled = true)
    (htr : s.tracked = some old)
    (htop : Phantom.is_on_top s.host old = false)
    (hstab : Phantom.is_stabilized s.host old now = true)
    (hstack : get_symbol_stack s.host.view s.host.visibleRegion = []) :
    (handle_view s now).host.phantoms = [] ∧
    (handle_view s now).tracked = some old :=
  handle_view_stabilized_empty s old now hen htr htop hstab hstack

/-- Claim C7 witness: the concrete stabilized tick at `t = 2` over a
symbol-free view erases the phantom store yet keeps the stale map entry. -/
theorem stabilized_empty_stack_inst :
    (handle_view exState6 2).host.phantoms = [] ∧
    (handle_view exState6 2).tracked = some exOld6 :=
  stabilized_empty_stack_keeps_stale_entry exState6 exOld6 2 rfl rfl
    (by decide) exState6_stabilized_at_two rfl

end StickyLines
